import Mathlib

/-!
Verification of the retry/backoff dispatch engine of the `rchttp` client
(`client.go`).  The Go code is shallowly embedded: durations are integers
counting nanoseconds, the transport is an oracle giving the outcome and
duration of each send, jitter draws are an oracle of values in `Fin 4`
(mirroring `rand.Intn(4)`), and the caller's context is modelled by the
virtual time at which its cancellation signal fires.  A virtual clock is
threaded through the dispatch: `time.Sleep(d)` advances it by `max d 0`
(a negative or zero duration sleeps no time) and each send advances it by
the oracle-given duration, so that `ctx.Err()` checkpoints observe
cancellation exactly when the fire time has passed.
-/

set_option autoImplicit false

/-- An HTTP response, reduced to the only field the retry logic reads. -/
structure HttpResponse where
  statusCode : Nat
deriving DecidableEq

/-- Go `error` values, modelled by their message. -/
abbrev GoError := String

/-- Outcome of one `doer` call: `ctxhttp.Do` returns either a response with a
nil error, or a nil response with a non-nil error, never both. -/
inductive SendOutcome where
  | resp (r : HttpResponse)
  | err (e : GoError)
deriving DecidableEq

/-- The `(resp, err)` pair a `SendOutcome` stands for. -/
def outcomePair : SendOutcome → Option HttpResponse × Option GoError
  | .resp r => (some r, none)
  | .err e => (none, some e)

/-- The configuration fields of `Client` that the dispatch logic reads
(`HTTPClient` is behind the send oracle). `RetryTime` is a `time.Duration`
in nanoseconds. -/
structure Client where
  MaxRetries : Int
  ExponentialBackoff : Bool
  RetryTime : Int
deriving DecidableEq

/-- The caller's context: the virtual time at which cancellation fires
(`none` = never) and the error `ctx.Err()` then reports. -/
structure Ctx where
  fireTime : Option Nat
  cancelErr : GoError
deriving DecidableEq

/-- `ctx.Err()` observed at virtual time `t`: non-nil exactly once the fire
time has passed (one-shot and monotone by construction). -/
def Ctx.errAt (ctx : Ctx) (t : Nat) : Option GoError :=
  match ctx.fireTime with
  | some ft => if ft ≤ t then some ctx.cancelErr else none
  | none => none

/-- Observable events of a dispatch, in order: each `time.Sleep` with the
duration passed to it, and each send with its oracle index. -/
inductive Event where
  | sleep (d : Int)
  | send (idx : Nat)
deriving DecidableEq

/-- Result of a dispatch: the returned `(resp, err)` pair, the virtual clock
at return, the number of sends performed, and the event trace. -/
structure RunResult where
  resp : Option HttpResponse
  err : Option GoError
  clock : Nat
  sends : Nat
  trace : List Event
deriving DecidableEq

/-- Oracles for the external world: `attempts k` is the outcome of the k-th
send (k = 0 is the first attempt in `Do`), `sendDur k` its duration, and
`rnd a` the `rand.Intn(4)` draw of loop iteration `a`. -/
structure Env where
  attempts : Nat → SendOutcome
  sendDur : Nat → Nat
  rnd : Nat → Fin 4

/-- `time.Millisecond` in nanoseconds. -/
def millisecond : Int := 1000000

/-- `getSleepTime` from `client.go`: `2^attempt * retryTime` minus a jitter of
`rand.Intn(4)+1` milliseconds.  No clamping is performed. -/
def getSleepTime (attempt : Nat) (retryTime : Int) (rnd : Fin 4) : Int :=
  (2 : Int) ^ attempt * retryTime - ((rnd.val : Int) + 1) * millisecond

/-- The `for attempt := 1; attempt <= maxRetries` loop of `Client.backoff`,
with `fuel` the remaining iterations and `resp`, `err` the named return
values of the Go function (both start nil and persist across iterations).
Each iteration: pre-sleep `ctx.Err()` check, `time.Sleep(getSleepTime(...))`,
send, post-send `ctx.Err()` check (which overwrites only `err`), then the
stop test `err == nil && resp.StatusCode < 500 && resp.StatusCode != 409`. -/
def backoffLoop (c : Client) (ctx : Ctx) (env : Env) :
    Nat → Nat → Nat → Nat → Option HttpResponse → Option GoError → RunResult
  | 0, _, _, clock, resp, err => ⟨resp, err, clock, 0, []⟩
  | fuel + 1, attempt, sendIdx, clock, resp, err =>
    match ctx.errAt clock with
    | some e => ⟨resp, some e, clock, 0, []⟩
    | none =>
      let d := getSleepTime attempt c.RetryTime (env.rnd attempt)
      let clock1 := clock + d.toNat
      let o := env.attempts sendIdx
      let clock2 := clock1 + env.sendDur sendIdx
      match ctx.errAt clock2 with
      | some e => ⟨(outcomePair o).1, some e, clock2, 1, [.sleep d, .send sendIdx]⟩
      | none =>
        match o with
        | .resp r =>
          if r.statusCode < 500 ∧ r.statusCode ≠ 409 then
            ⟨some r, none, clock2, 1, [.sleep d, .send sendIdx]⟩
          else
            let rest := backoffLoop c ctx env fuel (attempt + 1) (sendIdx + 1) clock2 (some r) none
            ⟨rest.resp, rest.err, rest.clock, rest.sends + 1, .sleep d :: .send sendIdx :: rest.trace⟩
        | .err e =>
          let rest := backoffLoop c ctx env fuel (attempt + 1) (sendIdx + 1) clock2 none (some e)
          ⟨rest.resp, rest.err, rest.clock, rest.sends + 1, .sleep d :: .send sendIdx :: rest.trace⟩

/-- `Client.backoff` from `client.go`: with fewer than 1 retries it returns
`(nil, retryErr)` immediately, otherwise it runs the retry loop starting at
attempt 1 with fresh nil named return values. -/
def Client.backoff (c : Client) (ctx : Ctx) (env : Env) (retryErr : Option GoError)
    (clock : Nat) (sendIdx : Nat) : RunResult :=
  if c.MaxRetries < 1 then ⟨none, retryErr, clock, 0, []⟩
  else backoffLoop c ctx env c.MaxRetries.toNat 1 sendIdx clock none none

/-- The dispatch part of `Client.Do` from `client.go` (the correlation-header
part is modelled separately by `buildCorrelationHeader`): perform attempt 0;
on a transport error enter `backoff` with `retryErr = err` when
`ExponentialBackoff` is set, else return `(nil, err)`; on a response enter
`backoff` with `retryErr = nil` when `ExponentialBackoff` is set and the
status is `>= 500` or `== 409`; otherwise return `(resp, nil)`. -/
def Client.Do (c : Client) (ctx : Ctx) (env : Env) : RunResult :=
  let clock1 := env.sendDur 0
  match env.attempts 0 with
  | .err e =>
    if c.ExponentialBackoff then
      let rest := c.backoff ctx env (some e) clock1 1
      ⟨rest.resp, rest.err, rest.clock, rest.sends + 1, .send 0 :: rest.trace⟩
    else ⟨none, some e, clock1, 1, [.send 0]⟩
  | .resp r =>
    if c.ExponentialBackoff then
      if 500 ≤ r.statusCode then
        let rest := c.backoff ctx env none clock1 1
        ⟨rest.resp, rest.err, rest.clock, rest.sends + 1, .send 0 :: rest.trace⟩
      else if r.statusCode = 409 then
        let rest := c.backoff ctx env none clock1 1
        ⟨rest.resp, rest.err, rest.clock, rest.sends + 1, .send 0 :: rest.trace⟩
      else ⟨some r, none, clock1, 1, [.send 0]⟩
    else ⟨some r, none, clock1, 1, [.send 0]⟩

/-- The retry classification shared by `Do` (first attempt) and the loop body
(every retry attempt): a transport error, a status `>= 500`, or status `409`. -/
def isRetryable : SendOutcome → Bool
  | .err _ => true
  | .resp r => decide (500 ≤ r.statusCode) || decide (r.statusCode = 409)

/-- C5 auxiliary: the jitter term of `getSleepTime` lies between 1 and 4
milliseconds. -/
theorem jitterBounds (j : Fin 4) :
    millisecond ≤ ((j.val : Int) + 1) * millisecond ∧
      ((j.val : Int) + 1) * millisecond ≤ 4 * millisecond := by
  have hj : j.val < 4 := j.isLt
  unfold millisecond
  omega

/-- C5: for every attempt number `n ≥ 1`, base delay `b` and jitter draw `j`,
the computed backoff delay equals `2^n * b` minus a jitter of `j+1`
milliseconds (with `j+1` between 1 and 4), hence lies in the interval
`[2^n*b - 4ms, 2^n*b - 1ms]`. -/
theorem sleepTimeFormulaBounds (n : Nat) (b : Int) (j : Fin 4) (h : 1 ≤ n) :
    getSleepTime n b j = (2 : Int) ^ n * b - ((j.val : Int) + 1) * millisecond ∧
      (2 : Int) ^ n * b - 4 * millisecond ≤ getSleepTime n b j ∧
      getSleepTime n b j ≤ (2 : Int) ^ n * b - 1 * millisecond := by
  refine ⟨rfl, ?_, ?_⟩ <;>
  · unfold getSleepTime millisecond
    have hj : j.val < 4 := j.isLt
    have hx : (0 : Int) ≤ (2 : Int) ^ n * b - (2 : Int) ^ n * b := by omega
    generalize (2 : Int) ^ n * b = x
    omega

/-- C5 witness: the formula and bounds instantiated at attempt 1,
base delay 20ms and jitter draw 0. -/
theorem sleepTimeFormulaBoundsWitness :
    1 ≤ 1 ∧
      (getSleepTime 1 20000000 0 = (2 : Int) ^ 1 * 20000000 - ((0 : Int) + 1) * millisecond ∧
        (2 : Int) ^ 1 * 20000000 - 4 * millisecond ≤ getSleepTime 1 20000000 0 ∧
        getSleepTime 1 20000000 0 ≤ (2 : Int) ^ 1 * 20000000 - 1 * millisecond) :=
  ⟨Nat.le_refl 1, sleepTimeFormulaBounds 1 20000000 0 (Nat.le_refl 1)⟩

/-- C6 counterexample: at attempt 1, base delay 1ns and jitter draw 0,
`getSleepTime` returns a negative duration — the code does not clamp to
zero. -/
theorem sleepTimeNegativeCounterexample :
    getSleepTime 1 1 0 = -999998 ∧ getSleepTime 1 1 0 < 0 := by
  constructor <;> decide

/-- C6 amended: the computed backoff delay is the raw value `2^n*b - jitter`
with no clamping; whenever `2^n*b` is smaller than the drawn jitter the
returned delay is negative (the sleep primitive then sleeps zero time). -/
theorem sleepTimeUnclamped (n : Nat) (b : Int) (j : Fin 4)
    (h : (2 : Int) ^ n * b < ((j.val : Int) + 1) * millisecond) :
    getSleepTime n b j < 0 := by
  unfold getSleepTime
  omega

/-- C6 amended witness: at attempt 1, base delay 1ns and jitter draw 0 the
hypothesis holds and the returned delay is negative. -/
theorem sleepTimeUnclampedWitness :
    (2 : Int) ^ 1 * 1 < ((0 : Int) + 1) * millisecond ∧ getSleepTime 1 1 0 < 0 :=
  ⟨by decide, sleepTimeUnclamped 1 1 0 (by decide)⟩

/-- `strings.Index(s, c)` from the header-building code in `Client.Do`:
the index of the first occurrence of `c` in `s`, or `-1` when absent
(characters model the bytes of the Go string). -/
def goStringsIndex (s : String) (c : Char) : Int :=
  match s.toList.findIdx? (fun a => a = c) with
  | some i => (i : Int)
  | none => -1

/-- Lines 93-104 of `client.go`: the correlation-header value.  `freshId`
stands for `common.NewRequestID` (external to this repository), taking the
requested length.  With no upstream chain the new id length is 20; otherwise
it is `len(upstream)/2`, overridden by `commaPosition/2` when the first comma
sits at an index greater than 1, and the new id is appended after a comma. -/
def buildCorrelationHeader (upstream : String) (freshId : Nat → String) : String :=
  if upstream = "" then freshId 20
  else
    let base := upstream.length / 2
    let commaPosition := goStringsIndex upstream ','
    let addedIdLen := if 1 < commaPosition then commaPosition.toNat / 2 else base
    upstream ++ "," ++ freshId addedIdLen

/-- The claim's description of the seed length: the length up to the first
comma when that length is greater than 1, otherwise the full string
length. -/
def specSeedLength (s : String) : Nat :=
  match s.toList.findIdx? (fun a => a = ',') with
  | some i => if 1 < i then i else s.length
  | none => s.length

/-- C7 auxiliary: the length computed by the code equals half the seed length
described by the claim. -/
theorem addedIdLen_eq_half_specSeedLength (s : String) :
    (if 1 < goStringsIndex s ',' then (goStringsIndex s ',').toNat / 2 else s.length / 2)
      = specSeedLength s / 2 := by
  unfold goStringsIndex specSeedLength
  cases h : s.toList.findIdx? (fun a => a = ',') with
  | none => simp
  | some i =>
    simp only []
    by_cases hi : 1 < i
    · rw [if_pos (by exact_mod_cast hi), if_pos hi, Int.toNat_ofNat]
    · rw [if_neg (by exact_mod_cast hi), if_neg hi]

/-- C7: with no existing chain the header is a single newly generated
identifier of exactly 20 characters; with an existing chain the header is the
chain, unchanged, followed by a comma and a new identifier whose length is
the floor of half the length of the chain's first segment (length up to the
first comma when greater than 1, otherwise the full string length). -/
theorem correlationHeaderBuild (upstream : String) (freshId : Nat → String)
    (hgen : ∀ n, (freshId n).length = n) :
    (upstream = "" →
      buildCorrelationHeader upstream freshId = freshId 20 ∧
        (buildCorrelationHeader upstream freshId).length = 20) ∧
    (upstream ≠ "" →
      buildCorrelationHeader upstream freshId
          = upstream ++ "," ++ freshId (specSeedLength upstream / 2) ∧
        (freshId (specSeedLength upstream / 2)).length = specSeedLength upstream / 2) := by
  constructor
  · intro h
    subst h
    exact ⟨rfl, hgen 20⟩
  · intro h
    unfold buildCorrelationHeader
    rw [if_neg h]
    simp only []
    rw [addedIdLen_eq_half_specSeedLength]
    exact ⟨rfl, hgen _⟩

/-- C7 witness: instantiated at the empty chain and at the chain
`"call1234"` (first segment length 8, no comma), with a generator producing
runs of `x` of the requested length. -/
theorem correlationHeaderBuildWitness :
    (∀ n, (String.mk (List.replicate n 'x')).length = n) ∧
      ("call1234" ≠ "" →
        buildCorrelationHeader "call1234" (fun n => String.mk (List.replicate n 'x'))
            = "call1234" ++ "," ++ String.mk (List.replicate (specSeedLength "call1234" / 2) 'x') ∧
          (String.mk (List.replicate (specSeedLength "call1234" / 2) 'x')).length
            = specSeedLength "call1234" / 2) :=
  ⟨fun n => by simp, (correlationHeaderBuild "call1234" (fun n => String.mk (List.replicate n 'x'))
    (fun n => by simp)).2⟩

/-- A context that never fires reports no error at any checkpoint. -/
theorem errAt_none_of_never (ctx : Ctx) (h : ctx.fireTime = none) (t : Nat) :
    ctx.errAt t = none := by
  unfold Ctx.errAt
  rw [h]

/-- One unfolding of the retry loop when the context never fires. -/
theorem backoffLoop_step_noCancel (c : Client) (ctx : Ctx) (env : Env)
    (h : ctx.fireTime = none) (fuel attempt sendIdx clock : Nat)
    (resp : Option HttpResponse) (err : Option GoError) :
    backoffLoop c ctx env (fuel + 1) attempt sendIdx clock resp err =
      (let d := getSleepTime attempt c.RetryTime (env.rnd attempt)
       let clock2 := clock + d.toNat + env.sendDur sendIdx
       match env.attempts sendIdx with
       | .resp r =>
         if r.statusCode < 500 ∧ r.statusCode ≠ 409 then
           ⟨some r, none, clock2, 1, [.sleep d, .send sendIdx]⟩
         else
           let rest := backoffLoop c ctx env fuel (attempt + 1) (sendIdx + 1) clock2 (some r) none
           ⟨rest.resp, rest.err, rest.clock, rest.sends + 1, .sleep d :: .send sendIdx :: rest.trace⟩
       | .err e =>
         let rest := backoffLoop c ctx env fuel (attempt + 1) (sendIdx + 1) clock2 none (some e)
         ⟨rest.resp, rest.err, rest.clock, rest.sends + 1, .sleep d :: .send sendIdx :: rest.trace⟩) := by
  simp only [backoffLoop, errAt_none_of_never ctx h]

/-- When the context never fires, every loop entry with remaining fuel
performs at least one send. -/
theorem backoffLoop_sends_pos (c : Client) (ctx : Ctx) (env : Env)
    (h : ctx.fireTime = none) (fuel attempt sendIdx clock : Nat)
    (resp : Option HttpResponse) (err : Option GoError) :
    1 ≤ (backoffLoop c ctx env (fuel + 1) attempt sendIdx clock resp err).sends := by
  rw [backoffLoop_step_noCancel c ctx env h]
  cases env.attempts sendIdx with
  | resp r =>
    by_cases hr : r.statusCode < 500 ∧ r.statusCode ≠ 409
    · simp [hr]
    · simp [hr]
  | err e => simp

/-- C10: when `ExponentialBackoff` is false, `Do` performs exactly one send
and returns the first attempt's outcome unchanged — a transport error as
`(nil, error)`, any response (including status >= 500 or 409) as
`(response, nil)` — regardless of `MaxRetries`. -/
theorem backoffDisabledSingleAttempt (c : Client) (ctx : Ctx) (env : Env)
    (h : c.ExponentialBackoff = false) :
    (c.Do ctx env).sends = 1 ∧
      (c.Do ctx env).resp = (outcomePair (env.attempts 0)).1 ∧
      (c.Do ctx env).err = (outcomePair (env.attempts 0)).2 := by
  unfold Client.Do
  cases ho : env.attempts 0 <;> simp [h, outcomePair, ho]

/-- C10 witness: a client with `MaxRetries = 10` but `ExponentialBackoff`
off, receiving a 500 response, sends once and returns that response with no
error. -/
theorem backoffDisabledSingleAttemptWitness :
    (Client.mk 10 false 20000000).ExponentialBackoff = false ∧
      (Client.Do ⟨10, false, 20000000⟩ ⟨none, "context canceled"⟩
          ⟨fun _ => .resp ⟨500⟩, fun _ => 1, fun _ => 0⟩).sends = 1 ∧
      (Client.Do ⟨10, false, 20000000⟩ ⟨none, "context canceled"⟩
          ⟨fun _ => .resp ⟨500⟩, fun _ => 1, fun _ => 0⟩).resp = some ⟨500⟩ ∧
      (Client.Do ⟨10, false, 20000000⟩ ⟨none, "context canceled"⟩
          ⟨fun _ => .resp ⟨500⟩, fun _ => 1, fun _ => 0⟩).err = none := by
  have h := backoffDisabledSingleAttempt ⟨10, false, 20000000⟩ ⟨none, "context canceled"⟩
    ⟨fun _ => .resp ⟨500⟩, fun _ => 1, fun _ => 0⟩ rfl
  exact ⟨rfl, h.1, h.2.1.trans rfl, h.2.2.trans rfl⟩

/-- C2: with `MaxRetries = 0`, `ExponentialBackoff` on and a first attempt
that yields a 500 response with nil error, `Do` performs exactly one send but
returns `(nil, nil)` — `backoff` is entered with `retryErr` equal to the nil
`err` of the response branch and returns it — instead of the first attempt's
response.  The repository's own test `TestClientHandlesUnsuccessfulRequests`
(max retries 0, server answering 500) expects the 500 response back with nil
error. -/
theorem maxRetriesZeroDropsRetryableResponse :
    (Client.Do ⟨0, true, 20000000⟩ ⟨none, "context canceled"⟩
        ⟨fun _ => .resp ⟨500⟩, fun _ => 1, fun _ => 0⟩).sends = 1 ∧
      (Client.Do ⟨0, true, 20000000⟩ ⟨none, "context canceled"⟩
          ⟨fun _ => .resp ⟨500⟩, fun _ => 1, fun _ => 0⟩).resp = none ∧
      (Client.Do ⟨0, true, 20000000⟩ ⟨none, "context canceled"⟩
          ⟨fun _ => .resp ⟨500⟩, fun _ => 1, fun _ => 0⟩).err = none :=
  ⟨rfl, rfl, rfl⟩

/-- One unfolding of the retry loop past a clean pre-sleep checkpoint. -/
theorem backoffLoop_step (c : Client) (ctx : Ctx) (env : Env)
    (fuel attempt sendIdx clock : Nat)
    (resp : Option HttpResponse) (err : Option GoError)
    (h : ctx.errAt clock = none) :
    backoffLoop c ctx env (fuel + 1) attempt sendIdx clock resp err =
      (let d := getSleepTime attempt c.RetryTime (env.rnd attempt)
       let clock2 := clock + d.toNat + env.sendDur sendIdx
       match ctx.errAt clock2 with
       | some e => ⟨(outcomePair (env.attempts sendIdx)).1, some e, clock2, 1,
           [.sleep d, .send sendIdx]⟩
       | none =>
         match env.attempts sendIdx with
         | .resp r =>
           if r.statusCode < 500 ∧ r.statusCode ≠ 409 then
             ⟨some r, none, clock2, 1, [.sleep d, .send sendIdx]⟩
           else
             let rest := backoffLoop c ctx env fuel (attempt + 1) (sendIdx + 1) clock2 (some r) none
             ⟨rest.resp, rest.err, rest.clock, rest.sends + 1, .sleep d :: .send sendIdx :: rest.trace⟩
         | .err e =>
           let rest := backoffLoop c ctx env fuel (attempt + 1) (sendIdx + 1) clock2 none (some e)
           ⟨rest.resp, rest.err, rest.clock, rest.sends + 1, .sleep d :: .send sendIdx :: rest.trace⟩) := by
  simp only [backoffLoop, h]

/-- The virtual clock never moves backwards across the retry loop. -/
theorem backoffLoop_clock_le (c : Client) (ctx : Ctx) (env : Env) :
    ∀ (fuel attempt sendIdx clock : Nat) (resp : Option HttpResponse) (err : Option GoError),
      clock ≤ (backoffLoop c ctx env fuel attempt sendIdx clock resp err).clock := by
  intro fuel
  induction fuel with
  | zero =>
    intro attempt sendIdx clock resp err
    simp [backoffLoop]
  | succ fuel ih =>
    intro attempt sendIdx clock resp err
    cases hc : ctx.errAt clock with
    | some e => simp [backoffLoop, hc]
    | none =>
      rw [backoffLoop_step c ctx env fuel attempt sendIdx clock resp err hc]
      dsimp only
      cases hc2 : ctx.errAt (clock + (getSleepTime attempt c.RetryTime (env.rnd attempt)).toNat + env.sendDur sendIdx) with
      | some e =>
        simp only []
        omega
      | none =>
        cases ho : env.attempts sendIdx with
        | resp r =>
          by_cases hr : r.statusCode < 500 ∧ r.statusCode ≠ 409
          · simp only [if_pos hr]
            omega
          · simp only [if_neg hr]
            have := ih (attempt + 1) (sendIdx + 1)
              (clock + (getSleepTime attempt c.RetryTime (env.rnd attempt)).toNat + env.sendDur sendIdx)
              (some r) none
            omega
        | err e =>
          have := ih (attempt + 1) (sendIdx + 1)
            (clock + (getSleepTime attempt c.RetryTime (env.rnd attempt)).toNat + env.sendDur sendIdx)
            none (some e)
          simp only []
          omega

/-- With a never-firing context, a non-retryable outcome at `sendIdx` makes
the loop return that outcome after its single send. -/
theorem backoffLoop_stops (c : Client) (ctx : Ctx) (env : Env)
    (h : ctx.fireTime = none) (fuel attempt sendIdx clock : Nat)
    (resp : Option HttpResponse) (err : Option GoError) (r : HttpResponse)
    (ho : env.attempts sendIdx = .resp r) (hr : isRetryable (.resp r) = false) :
    backoffLoop c ctx env (fuel + 1) attempt sendIdx clock resp err =
      ⟨some r, none,
        clock + (getSleepTime attempt c.RetryTime (env.rnd attempt)).toNat + env.sendDur sendIdx, 1,
        [.sleep (getSleepTime attempt c.RetryTime (env.rnd attempt)), .send sendIdx]⟩ := by
  have hcond : r.statusCode < 500 ∧ r.statusCode ≠ 409 := by
    simp only [isRetryable, Bool.or_eq_false_iff, decide_eq_false_iff_not] at hr
    omega
  rw [backoffLoop_step c ctx env fuel attempt sendIdx clock resp err (errAt_none_of_never ctx h clock)]
  dsimp only
  rw [errAt_none_of_never ctx h, ho]
  simp only [if_pos hcond]

/-- With a never-firing context, a retryable outcome at `sendIdx` makes the
loop recurse, carrying that outcome as the new named `(resp, err)` state. -/
theorem backoffLoop_continues (c : Client) (ctx : Ctx) (env : Env)
    (h : ctx.fireTime = none) (fuel attempt sendIdx clock : Nat)
    (resp : Option HttpResponse) (err : Option GoError)
    (hr : isRetryable (env.attempts sendIdx) = true) :
    backoffLoop c ctx env (fuel + 1) attempt sendIdx clock resp err =
      (let d := getSleepTime attempt c.RetryTime (env.rnd attempt)
       let rest := backoffLoop c ctx env fuel (attempt + 1) (sendIdx + 1)
         (clock + d.toNat + env.sendDur sendIdx)
         (outcomePair (env.attempts sendIdx)).1 (outcomePair (env.attempts sendIdx)).2
       ⟨rest.resp, rest.err, rest.clock, rest.sends + 1, .sleep d :: .send sendIdx :: rest.trace⟩) := by
  rw [backoffLoop_step c ctx env fuel attempt sendIdx clock resp err (errAt_none_of_never ctx h clock)]
  dsimp only
  rw [errAt_none_of_never ctx h]
  cases ho : env.attempts sendIdx with
  | resp r =>
    rw [ho] at hr
    have hcond : ¬ (r.statusCode < 500 ∧ r.statusCode ≠ 409) := by
      simp only [isRetryable, Bool.or_eq_true, decide_eq_true_eq] at hr
      omega
    simp only [if_neg hcond, outcomePair]
  | err e => simp only [outcomePair]

/-- With a never-firing context and every outcome retryable, the loop spends
all its fuel and returns the pair of the last send it performed. -/
theorem backoffLoop_allRetryable (c : Client) (ctx : Ctx) (env : Env)
    (h : ctx.fireTime = none) (hall : ∀ k, isRetryable (env.attempts k) = true) :
    ∀ (fuel attempt sendIdx clock : Nat) (resp : Option HttpResponse) (err : Option GoError),
      (backoffLoop c ctx env (fuel + 1) attempt sendIdx clock resp err).sends = fuel + 1 ∧
      (backoffLoop c ctx env (fuel + 1) attempt sendIdx clock resp err).resp
        = (outcomePair (env.attempts (sendIdx + fuel))).1 ∧
      (backoffLoop c ctx env (fuel + 1) attempt sendIdx clock resp err).err
        = (outcomePair (env.attempts (sendIdx + fuel))).2 := by
  intro fuel
  induction fuel with
  | zero =>
    intro attempt sendIdx clock resp err
    rw [backoffLoop_continues c ctx env h 0 attempt sendIdx clock resp err (hall sendIdx)]
    simp [backoffLoop]
  | succ fuel ih =>
    intro attempt sendIdx clock resp err
    rw [backoffLoop_continues c ctx env h (fuel + 1) attempt sendIdx clock resp err (hall sendIdx)]
    have hrec := ih (attempt + 1) (sendIdx + 1)
      (clock + (getSleepTime attempt c.RetryTime (env.rnd attempt)).toNat + env.sendDur sendIdx)
      (outcomePair (env.attempts sendIdx)).1 (outcomePair (env.attempts sendIdx)).2
    have hidx : sendIdx + 1 + fuel = sendIdx + (fuel + 1) := by omega
    rw [hidx] at hrec
    dsimp only
    exact ⟨by rw [hrec.1], hrec.2.1, hrec.2.2⟩

/-- C4: with retries enabled, `MaxRetries >= 1`, no cancellation and every
attempt's outcome retryable, exactly `1 + MaxRetries` sends occur and the
final attempt's `(resp, err)` pair is returned verbatim. -/
theorem retriesExhaustedReturnsLastOutcome (c : Client) (ctx : Ctx) (env : Env)
    (hEB : c.ExponentialBackoff = true) (hfire : ctx.fireTime = none)
    (hmax : 1 ≤ c.MaxRetries) (hall : ∀ k, isRetryable (env.attempts k) = true) :
    (c.Do ctx env).sends = 1 + c.MaxRetries.toNat ∧
      (c.Do ctx env).resp = (outcomePair (env.attempts c.MaxRetries.toNat)).1 ∧
      (c.Do ctx env).err = (outcomePair (env.attempts c.MaxRetries.toNat)).2 := by
  have hnl : ¬ (c.MaxRetries < 1) := by omega
  have hfuel : c.MaxRetries.toNat = (c.MaxRetries.toNat - 1) + 1 := by omega
  have hidx : 1 + (c.MaxRetries.toNat - 1) = c.MaxRetries.toNat := by omega
  have hloop := backoffLoop_allRetryable c ctx env hfire hall (c.MaxRetries.toNat - 1) 1 1
  unfold Client.Do Client.backoff
  cases ho : env.attempts 0 with
  | err e =>
    rw [hEB]
    simp only [if_true, if_neg hnl]
    rw [hfuel]
    have hl := hloop (env.sendDur 0) none none
    rw [hidx] at hl
    exact ⟨by rw [hl.1]; omega, by rw [hl.2.1, ← hfuel], by rw [hl.2.2, ← hfuel]⟩
  | resp r =>
    have hr := hall 0
    rw [ho] at hr
    simp only [isRetryable, Bool.or_eq_true, decide_eq_true_eq] at hr
    rw [hEB]
    simp only [if_true]
    have hl := hloop (env.sendDur 0) none none
    rw [hidx] at hl
    rcases hr with h5 | h9
    · rw [if_pos h5]
      simp only [if_neg hnl]
      rw [hfuel]
      exact ⟨by rw [hl.1]; omega, by rw [hl.2.1, ← hfuel], by rw [hl.2.2, ← hfuel]⟩
    · by_cases h5 : 500 ≤ r.statusCode
      · rw [if_pos h5]
        simp only [if_neg hnl]
        rw [hfuel]
        exact ⟨by rw [hl.1]; omega, by rw [hl.2.1, ← hfuel], by rw [hl.2.2, ← hfuel]⟩
      · rw [if_neg h5, if_pos h9]
        simp only [if_neg hnl]
        rw [hfuel]
        exact ⟨by rw [hl.1]; omega, by rw [hl.2.1, ← hfuel], by rw [hl.2.2, ← hfuel]⟩

/-- C4 witness: `MaxRetries = 3` against a server always answering 500 and a
never-firing context: 4 sends total, and the caller receives the 4th
response with status 500 and no error. -/
theorem retriesExhaustedReturnsLastOutcomeWitness :
    (∀ k, isRetryable ((fun (_ : Nat) => SendOutcome.resp ⟨500⟩) k) = true) ∧
      (Client.Do ⟨3, true, 20000000⟩ ⟨none, "context canceled"⟩
          ⟨fun _ => .resp ⟨500⟩, fun _ => 1, fun _ => 0⟩).sends = 4 ∧
      (Client.Do ⟨3, true, 20000000⟩ ⟨none, "context canceled"⟩
          ⟨fun _ => .resp ⟨500⟩, fun _ => 1, fun _ => 0⟩).resp = some ⟨500⟩ ∧
      (Client.Do ⟨3, true, 20000000⟩ ⟨none, "context canceled"⟩
          ⟨fun _ => .resp ⟨500⟩, fun _ => 1, fun _ => 0⟩).err = none := by
  have h := retriesExhaustedReturnsLastOutcome ⟨3, true, 20000000⟩ ⟨none, "context canceled"⟩
    ⟨fun _ => .resp ⟨500⟩, fun _ => 1, fun _ => 0⟩ rfl rfl (by decide) (fun k => rfl)
  exact ⟨fun k => rfl, h.1.trans rfl, h.2.1.trans rfl, h.2.2.trans rfl⟩

/-- C1: an attempt's outcome is classified retryable iff a transport error
occurred, or a response arrived with status >= 500, or with status exactly
409; 429 in particular is final.  With retries enabled and no cancellation,
the first attempt's classification alone decides whether a further send
occurs (`Do`), and each retry attempt's classification alone decides whether
the loop sends again, by the same predicate. -/
theorem retryPredicateClassification (c : Client) (ctx : Ctx) (env : Env)
    (hEB : c.ExponentialBackoff = true) (hfire : ctx.fireTime = none)
    (hmax : 1 ≤ c.MaxRetries) :
    (∀ e, isRetryable (.err e) = true) ∧
    (∀ r : HttpResponse, isRetryable (.resp r) = true ↔ 500 ≤ r.statusCode ∨ r.statusCode = 409) ∧
    isRetryable (.resp ⟨429⟩) = false ∧
    (2 ≤ (c.Do ctx env).sends ↔ isRetryable (env.attempts 0) = true) ∧
    (∀ (fuel attempt sendIdx clock : Nat) (resp : Option HttpResponse) (err : Option GoError),
      2 ≤ (backoffLoop c ctx env (fuel + 2) attempt sendIdx clock resp err).sends
        ↔ isRetryable (env.attempts sendIdx) = true) := by
  have hnl : ¬ (c.MaxRetries < 1) := by omega
  have hfuel : c.MaxRetries.toNat = (c.MaxRetries.toNat - 1) + 1 := by omega
  refine ⟨fun e => rfl, fun r => by simp [isRetryable], rfl, ?_, ?_⟩
  · by_cases hret : isRetryable (env.attempts 0) = true
    · refine iff_of_true ?_ hret
      cases ho : env.attempts 0 with
      | err e =>
        unfold Client.Do Client.backoff
        rw [ho, hEB]
        simp only [if_true, if_neg hnl]
        rw [hfuel]
        have := backoffLoop_sends_pos c ctx env hfire (c.MaxRetries.toNat - 1) 1 1
          (env.sendDur 0) none none
        omega
      | resp r =>
        rw [ho] at hret
        simp only [isRetryable, Bool.or_eq_true, decide_eq_true_eq] at hret
        unfold Client.Do Client.backoff
        rw [ho, hEB]
        simp only [if_true]
        have hsp := backoffLoop_sends_pos c ctx env hfire (c.MaxRetries.toNat - 1) 1 1
          (env.sendDur 0) none none
        rcases hret with h5 | h9
        · rw [if_pos h5]
          simp only [if_neg hnl]
          rw [hfuel]
          omega
        · by_cases h5 : 500 ≤ r.statusCode
          · rw [if_pos h5]
            simp only [if_neg hnl]
            rw [hfuel]
            omega
          · rw [if_neg h5, if_pos h9]
            simp only [if_neg hnl]
            rw [hfuel]
            omega
    · have hret' : isRetryable (env.attempts 0) = false := by
        cases hb : isRetryable (env.attempts 0)
        · rfl
        · exact absurd hb hret
      refine iff_of_false ?_ (by simp [hret'])
      obtain ⟨r, hr, h5, h9⟩ :
          ∃ r, env.attempts 0 = .resp r ∧ ¬ 500 ≤ r.statusCode ∧ r.statusCode ≠ 409 := by
        cases hq : env.attempts 0 with
        | resp r =>
          rw [hq] at hret'
          simp only [isRetryable, Bool.or_eq_false_iff, decide_eq_false_iff_not] at hret'
          exact ⟨r, rfl, hret'.1, hret'.2⟩
        | err e =>
          rw [hq] at hret'
          simp [isRetryable] at hret'
      unfold Client.Do
      rw [hr, hEB]
      simp only [if_true, if_neg h5, if_neg h9]
      omega
  · intro fuel attempt sendIdx clock resp err
    by_cases hret : isRetryable (env.attempts sendIdx) = true
    · refine iff_of_true ?_ hret
      have hstep := backoffLoop_continues c ctx env hfire (fuel + 1) attempt sendIdx clock
        resp err hret
      rw [show fuel + 2 = (fuel + 1) + 1 by omega, hstep]
      dsimp only
      have := backoffLoop_sends_pos c ctx env hfire fuel (attempt + 1) (sendIdx + 1)
        (clock + (getSleepTime attempt c.RetryTime (env.rnd attempt)).toNat + env.sendDur sendIdx)
        (outcomePair (env.attempts sendIdx)).1 (outcomePair (env.attempts sendIdx)).2
      omega
    · have hret' : isRetryable (env.attempts sendIdx) = false := by
        cases hb : isRetryable (env.attempts sendIdx)
        · rfl
        · exact absurd hb hret
      refine iff_of_false ?_ (by simp [hret'])
      obtain ⟨r, hr⟩ : ∃ r, env.attempts sendIdx = .resp r := by
        cases hq : env.attempts sendIdx with
        | resp r => exact ⟨r, rfl⟩
        | err e =>
          rw [hq] at hret'
          simp [isRetryable] at hret'
      have hstop := backoffLoop_stops c ctx env hfire (fuel + 1) attempt sendIdx clock resp err r
        hr (by rw [← hr]; exact hret')
      rw [show fuel + 2 = (fuel + 1) + 1 by omega, hstop]
      dsimp only
      omega

/-- C1 witness: at a client with one retry, a never-firing context and a
server always answering 500, the first-attempt classification equivalence is
instantiated. -/
theorem retryPredicateClassificationWitness :
    (Client.mk 1 true 20000000).ExponentialBackoff = true ∧
      (1 : Int) ≤ (Client.mk 1 true 20000000).MaxRetries ∧
      (2 ≤ (Client.Do ⟨1, true, 20000000⟩ ⟨none, "context canceled"⟩
            ⟨fun _ => .resp ⟨500⟩, fun _ => 1, fun _ => 0⟩).sends ↔
        isRetryable ((fun (_ : Nat) => SendOutcome.resp ⟨500⟩) 0) = true) := by
  have h := retryPredicateClassification ⟨1, true, 20000000⟩ ⟨none, "context canceled"⟩
    ⟨fun _ => .resp ⟨500⟩, fun _ => 1, fun _ => 0⟩ rfl rfl (by decide)
  exact ⟨rfl, by decide, h.2.2.2.1⟩

/-- C3 counterexample: context cancellation fires at time 19005000, during
the retry send (which starts at 19001000 and returns a 200 response at
19011000).  The dispatch returns the cancellation's error, but together with
the just-received 200 response — not a nil response: the Go named return
value `resp` is not cleared when `err` is overwritten with `ctx.Err()`. -/
theorem cancellationReturnsResponseCounterexample :
    (Client.Do ⟨2, true, 10000000⟩ ⟨some 19005000, "context canceled"⟩
        ⟨fun k => if k = 0 then .resp ⟨500⟩ else .resp ⟨200⟩,
          fun k => if k = 0 then 1000 else 10000, fun _ => 0⟩).err
        = some "context canceled" ∧
      (Client.Do ⟨2, true, 10000000⟩ ⟨some 19005000, "context canceled"⟩
          ⟨fun k => if k = 0 then .resp ⟨500⟩ else .resp ⟨200⟩,
            fun k => if k = 0 then 1000 else 10000, fun _ => 0⟩).resp
        = some ⟨200⟩ ∧
      (Client.Do ⟨2, true, 10000000⟩ ⟨some 19005000, "context canceled"⟩
          ⟨fun k => if k = 0 then .resp ⟨500⟩ else .resp ⟨200⟩,
            fun k => if k = 0 then 1000 else 10000, fun _ => 0⟩).resp
        ≠ none := by
  refine ⟨rfl, rfl, by decide⟩

/-- C3 amended: whenever the cancellation signal is observed at a loop
checkpoint, the returned error is the cancellation's own error, taking
priority over the send's error; the returned response, however, is the
loop's current named response — the previous attempt's response at the
pre-sleep checkpoint, the just-received outcome's response at the post-send
checkpoint — and is not necessarily nil. -/
theorem cancellationErrorPriority (c : Client) (ctx : Ctx) (env : Env)
    (fuel attempt sendIdx clock : Nat)
    (resp : Option HttpResponse) (err : Option GoError) :
    (∀ e, ctx.errAt clock = some e →
      backoffLoop c ctx env (fuel + 1) attempt sendIdx clock resp err
        = ⟨resp, some e, clock, 0, []⟩) ∧
    (∀ e, ctx.errAt clock = none →
      ctx.errAt (clock + (getSleepTime attempt c.RetryTime (env.rnd attempt)).toNat
          + env.sendDur sendIdx) = some e →
      backoffLoop c ctx env (fuel + 1) attempt sendIdx clock resp err
        = ⟨(outcomePair (env.attempts sendIdx)).1, some e,
            clock + (getSleepTime attempt c.RetryTime (env.rnd attempt)).toNat
              + env.sendDur sendIdx, 1,
            [.sleep (getSleepTime attempt c.RetryTime (env.rnd attempt)), .send sendIdx]⟩) := by
  constructor
  · intro e he
    simp only [backoffLoop, he]
  · intro e h0 h1
    rw [backoffLoop_step c ctx env fuel attempt sendIdx clock resp err h0]
    dsimp only
    rw [h1]

/-- C3 amended witness: a context already fired at the pre-sleep checkpoint
makes the loop return its current named response (a 500 from the previous
attempt) together with the cancellation error. -/
theorem cancellationErrorPriorityWitness :
    (Ctx.mk (some 0) "context canceled").errAt 5 = some "context canceled" ∧
      backoffLoop ⟨2, true, 10000000⟩ ⟨some 0, "context canceled"⟩
          ⟨fun _ => .resp ⟨500⟩, fun _ => 1, fun _ => 0⟩ 1 2 2 5 (some ⟨500⟩) none
        = ⟨some ⟨500⟩, some "context canceled", 5, 0, []⟩ :=
  ⟨rfl, (cancellationErrorPriority ⟨2, true, 10000000⟩ ⟨some 0, "context canceled"⟩
    ⟨fun _ => .resp ⟨500⟩, fun _ => 1, fun _ => 0⟩ 0 2 2 5 (some ⟨500⟩) none).1
    "context canceled" rfl⟩

/-- C9 counterexample: cancellation fires at time 2000000, strictly inside
the backoff sleep (which starts at 1000000 and lasts the full computed
19000000), yet the dispatch still sleeps the whole delay and performs one
more send — the trace records the full sleep followed by a send, and the
clock reaches 21000000 before the cancellation error is surfaced. -/
theorem sleepNotAbortedCounterexample :
    (1000000 < 2000000 ∧ 2000000 ≤ 1000000 + 19000000) ∧
      (Client.Do ⟨1, true, 10000000⟩ ⟨some 2000000, "context canceled"⟩
          ⟨fun k => if k = 0 then .resp ⟨500⟩ else .err "Post: context canceled",
            fun _ => 1000000, fun _ => 0⟩).trace
        = [.send 0, .sleep 19000000, .send 1] ∧
      (Client.Do ⟨1, true, 10000000⟩ ⟨some 2000000, "context canceled"⟩
          ⟨fun k => if k = 0 then .resp ⟨500⟩ else .err "Post: context canceled",
            fun _ => 1000000, fun _ => 0⟩).clock = 21000000 ∧
      (Client.Do ⟨1, true, 10000000⟩ ⟨some 2000000, "context canceled"⟩
          ⟨fun k => if k = 0 then .resp ⟨500⟩ else .err "Post: context canceled",
            fun _ => 1000000, fun _ => 0⟩).err = some "context canceled" := by
  refine ⟨by decide, rfl, rfl, rfl⟩

/-- C9 amended: the backoff sleep is not interruptible.  Once the pre-sleep
cancellation check passes, the loop unconditionally sleeps the full computed
delay and performs the next send before cancellation is observed again:
the trace continues with the full-delay sleep followed by a send, and the
clock advances past both, regardless of when cancellation fires. -/
theorem sleepFullDelayObserved (c : Client) (ctx : Ctx) (env : Env)
    (fuel attempt sendIdx clock : Nat)
    (resp : Option HttpResponse) (err : Option GoError)
    (h : ctx.errAt clock = none) :
    (∃ t, (backoffLoop c ctx env (fuel + 1) attempt sendIdx clock resp err).trace
        = .sleep (getSleepTime attempt c.RetryTime (env.rnd attempt))
            :: .send sendIdx :: t) ∧
      clock + (getSleepTime attempt c.RetryTime (env.rnd attempt)).toNat + env.sendDur sendIdx
        ≤ (backoffLoop c ctx env (fuel + 1) attempt sendIdx clock resp err).clock := by
  rw [backoffLoop_step c ctx env fuel attempt sendIdx clock resp err h]
  dsimp only
  cases hc2 : ctx.errAt (clock + (getSleepTime attempt c.RetryTime (env.rnd attempt)).toNat
      + env.sendDur sendIdx) with
  | some e => exact ⟨⟨[], rfl⟩, Nat.le_refl _⟩
  | none =>
    cases ho : env.attempts sendIdx with
    | resp r =>
      dsimp only
      by_cases hr : r.statusCode < 500 ∧ r.statusCode ≠ 409
      · rw [if_pos hr]
        exact ⟨⟨[], rfl⟩, Nat.le_refl _⟩
      · rw [if_neg hr]
        refine ⟨⟨_, rfl⟩, ?_⟩
        exact backoffLoop_clock_le c ctx env fuel (attempt + 1) (sendIdx + 1) _ (some r) none
    | err e =>
      dsimp only
      refine ⟨⟨_, rfl⟩, ?_⟩
      exact backoffLoop_clock_le c ctx env fuel (attempt + 1) (sendIdx + 1) _ none (some e)

/-- C9 amended witness: with cancellation firing at 2000000 — inside the
sleep that starts at 1000000 — the loop entered at clock 1000000 still
emits the full 19000000 sleep and a send, and its clock passes 21000000. -/
theorem sleepFullDelayObservedWitness :
    (Ctx.mk (some 2000000) "context canceled").errAt 1000000 = none ∧
      ((∃ t, (backoffLoop ⟨1, true, 10000000⟩ ⟨some 2000000, "context canceled"⟩
            ⟨fun k => if k = 0 then .resp ⟨500⟩ else .err "Post: context canceled",
              fun _ => 1000000, fun _ => 0⟩ 1 1 1 1000000 none none).trace
          = .sleep (getSleepTime 1 (10000000 : Int) 0) :: .send 1 :: t) ∧
        1000000 + (getSleepTime 1 (10000000 : Int) 0).toNat + 1000000
          ≤ (backoffLoop ⟨1, true, 10000000⟩ ⟨some 2000000, "context canceled"⟩
              ⟨fun k => if k = 0 then .resp ⟨500⟩ else .err "Post: context canceled",
                fun _ => 1000000, fun _ => 0⟩ 1 1 1 1000000 none none).clock) :=
  ⟨rfl, sleepFullDelayObserved ⟨1, true, 10000000⟩ ⟨some 2000000, "context canceled"⟩
    ⟨fun k => if k = 0 then .resp ⟨500⟩ else .err "Post: context canceled",
      fun _ => 1000000, fun _ => 0⟩ 0 1 1 1000000 none none rfl⟩

/-- Modelled from the spec: the `noRetryPaths` exemption set ("set of exact
path strings, default empty") is described in the specification but absent
from `client.go`, whose `Client` has no such field.  A client extended with
the exemption set, as the spec's configuration section describes it. -/
structure ClientWithExemptions where
  client : Client
  noRetryPaths : List String

/-- Modelled from the spec: dispatch step 3 — "If the destination path is in
the no-retry exemption set, ... return that outcome directly — no scheduler
invocation."  For an exempt path the first attempt's outcome is returned
after a single send; otherwise dispatch proceeds as `Client.Do` from
`client.go`. -/
def ClientWithExemptions.Do (c : ClientWithExemptions) (path : String)
    (ctx : Ctx) (env : Env) : RunResult :=
  if path ∈ c.noRetryPaths then
    ⟨(outcomePair (env.attempts 0)).1, (outcomePair (env.attempts 0)).2,
      env.sendDur 0, 1, [.send 0]⟩
  else c.client.Do ctx env

/-- C8: for every request whose destination path is in the configured
`noRetryPaths` exemption set, exactly one send occurs regardless of the
outcome — status 500 or 409, or a transport error alike — and that first
attempt's `(resp, err)` pair is returned with no retries. -/
theorem noRetryPathsSingleAttempt (c : ClientWithExemptions) (path : String)
    (ctx : Ctx) (env : Env) (h : path ∈ c.noRetryPaths) :
    (c.Do path ctx env).sends = 1 ∧
      (c.Do path ctx env).resp = (outcomePair (env.attempts 0)).1 ∧
      (c.Do path ctx env).err = (outcomePair (env.attempts 0)).2 := by
  unfold ClientWithExemptions.Do
  rw [if_pos h]
  exact ⟨rfl, rfl, rfl⟩

/-- C8 witness: a request to the exempt path `/health` that receives a 500
response is sent exactly once and the 500 response is returned. -/
theorem noRetryPathsSingleAttemptWitness :
    "/health" ∈ (ClientWithExemptions.mk ⟨10, true, 20000000⟩ ["/health"]).noRetryPaths ∧
      (ClientWithExemptions.Do ⟨⟨10, true, 20000000⟩, ["/health"]⟩ "/health"
          ⟨none, "context canceled"⟩ ⟨fun _ => .resp ⟨500⟩, fun _ => 1, fun _ => 0⟩).sends = 1 ∧
      (ClientWithExemptions.Do ⟨⟨10, true, 20000000⟩, ["/health"]⟩ "/health"
          ⟨none, "context canceled"⟩
          ⟨fun _ => .resp ⟨500⟩, fun _ => 1, fun _ => 0⟩).resp = some ⟨500⟩ ∧
      (ClientWithExemptions.Do ⟨⟨10, true, 20000000⟩, ["/health"]⟩ "/health"
          ⟨none, "context canceled"⟩
          ⟨fun _ => .resp ⟨500⟩, fun _ => 1, fun _ => 0⟩).err = none := by
  have h := noRetryPathsSingleAttempt ⟨⟨10, true, 20000000⟩, ["/health"]⟩ "/health"
    ⟨none, "context canceled"⟩ ⟨fun _ => .resp ⟨500⟩, fun _ => 1, fun _ => 0⟩
    (List.mem_singleton.mpr rfl)
  exact ⟨List.mem_singleton.mpr rfl, h.1, h.2.1.trans rfl, h.2.2.trans rfl⟩
